import Mathlib

/-!
Verification of the raft-trip booking application.

The embedding models `routes/booking_routes.py` (the `book` POST handler and
the `availability` endpoint) directly from the source.  The collaborators
`allocate_raft`, `ensure_rafts_for_date_slot`, `calculate_total_amount`,
`load_settings` and `create_booking` live in modules that are not part of the
repository snapshot (`utils/allocation_logic`, `utils/amount_calculator`,
`models/raft_model`, `models/booking_model`); they are modelled from the
specification, and each such definition is marked `Modelled from the spec:`.

Conventions of the embedding:
* Python `dict.get(k, default)` on settings becomes `Option.getD`.
* Raw dictionary subscription `settings['k']` (which raises `KeyError` when
  the key is missing) becomes a `match` whose missing branch produces
  `Except.error`; route handlers therefore return `Except String _`.
* The Mongo document store becomes a `Store` record holding the list of raft
  documents and the list of booking documents.
* Python `datetime.date` values become `YMDdate` records compared
  lexicographically; `datetime.strptime(s, '%Y-%m-%d')` becomes `parseDate`
  (components split on a dash, numeric, month in 1..12, day in 1..31 — a
  close approximation of strptime's calendar check, adequate because every
  claim treats parsing as a black box); `int(s)` becomes `parseIntStr`.
-/

/-- Calendar date, mirroring Python `datetime.date`. -/
structure YMDdate where
  y : Nat
  m : Nat
  d : Nat
deriving DecidableEq, Repr

/-- Strict comparison of dates, mirroring Python `date.__lt__`
(lexicographic on year, month, day). -/
def YMDdate.lt (a b : YMDdate) : Bool :=
  a.y < b.y || (a.y == b.y && (a.m < b.m || (a.m == b.m && a.d < b.d)))

/-- Python `max(a, b)` on two dates: returns `a` when `a >= b`, else `b`. -/
def dateMax (a b : YMDdate) : YMDdate :=
  if YMDdate.lt a b then b else a

/-- Days since the civil epoch 0000-03-01 (Hinnant's `days_from_civil`,
restricted to years ≥ 1 which keeps all intermediate values nonnegative).
Model of Python date arithmetic; used only to express `timedelta` addition. -/
def daysFromCivil (y m d : Nat) : Nat :=
  let y' := if m ≤ 2 then y - 1 else y
  let era := y' / 400
  let yoe := y' % 400
  let mp := (m + 9) % 12
  let doy := (153 * mp + 2) / 5 + d - 1
  let doe := yoe * 365 + yoe / 4 - yoe / 100 + doy
  era * 146097 + doe

/-- Inverse of `daysFromCivil` (Hinnant's `civil_from_days`). -/
def civilFromDays (z : Nat) : Nat × Nat × Nat :=
  let era := z / 146097
  let doe := z % 146097
  let yoe := (doe - doe / 1460 + doe / 36524 - doe / 146096) / 365
  let y := yoe + era * 400
  let doy := doe - (365 * yoe + yoe / 4 - yoe / 100)
  let mp := (5 * doy + 2) / 153
  let d := doy - (153 * mp + 2) / 5 + 1
  let m := if mp < 10 then mp + 3 else mp - 9
  (if m ≤ 2 then y + 1 else y, m, d)

/-- Python `today + timedelta(days=n)`. -/
def addDays (t : YMDdate) (n : Nat) : YMDdate :=
  let c := civilFromDays (daysFromCivil t.y t.m t.d + n)
  ⟨c.1, c.2.1, c.2.2⟩

/-- Decimal digit test. -/
def isDigitChar (c : Char) : Bool := '0' ≤ c && c ≤ '9'

/-- Numeric value of a digit character. -/
def digitVal (c : Char) : Nat := c.toNat - '0'.toNat

/-- Accumulate a decimal number; fails on any non-digit. -/
def parseNatCore : List Char → Nat → Option Nat
  | [], acc => some acc
  | c :: cs, acc =>
    if isDigitChar c then parseNatCore cs (acc * 10 + digitVal c) else none

/-- Parse a nonempty all-digit string of characters. -/
def parseNatChars (cs : List Char) : Option Nat :=
  if cs.isEmpty then none else parseNatCore cs 0

/-- Split a character list on dashes (model of `str.split('-')`). -/
def splitOnDashAux : List Char → List Char → List (List Char)
  | [], acc => [acc.reverse]
  | c :: cs, acc =>
    if c = '-' then acc.reverse :: splitOnDashAux cs []
    else splitOnDashAux cs (c :: acc)

/-- Split a string on dashes. -/
def splitOnDash (cs : List Char) : List (List Char) := splitOnDashAux cs []

/-- Model of `datetime.strptime(s, '%Y-%m-%d').date()`: three dash-separated
numeric components with month 1..12 and day 1..31; `none` models the
`ValueError` path. -/
def parseDate (s : String) : Option YMDdate :=
  match splitOnDash s.toList with
  | [ys, ms, ds] =>
    match parseNatChars ys, parseNatChars ms, parseNatChars ds with
    | some y, some m, some d =>
      if 1 ≤ m && m ≤ 12 && 1 ≤ d && d ≤ 31 then some ⟨y, m, d⟩ else none
    | _, _, _ => none
  | _ => none

/-- Model of Python `int(s)`: optional leading minus then decimal digits;
`none` models the `ValueError`/`TypeError` path caught by the handler. -/
def parseIntStr (s : String) : Option Int :=
  match s.toList with
  | '-' :: rest => (parseNatChars rest).map (fun n => -(n : Int))
  | cs => (parseNatChars cs).map (fun n => (n : Int))

/-- Raft document from the `rafts` collection: one per (day, slot, index),
with the seats currently filled. -/
structure Raft where
  idx : Nat
  day : String
  slot : String
  occupancy : Nat
deriving DecidableEq, Repr

/-- Booking document from the `bookings` collection, as inserted by the
`book` handler. -/
structure Booking where
  name : String
  email : String
  phone : String
  booking_date : String
  slot : String
  group_size : Int
  status : String
  raft_allocations : List (Nat × Nat)
  amount_per_person : Nat
  total_amount : Nat
deriving DecidableEq, Repr

/-- The document store: the two collections the booking flow touches. -/
structure Store where
  rafts : List Raft
  bookings : List Booking
deriving DecidableEq, Repr

/-- Settings document.  Every field is optional: `Option.getD` models
`settings.get(k, default)` and a `match` on the field models the raising
subscription `settings[k]`. -/
structure Settings where
  days : Option Nat
  rafts_per_slot : Option Nat
  capacity : Option Nat
  start_date : Option String
  end_date : Option String
  time_slots : Option (List String)
  amount : Option Nat
  peak_amount : Option Nat
  peak_dates : Option (List String)
deriving DecidableEq, Repr

/-- Modelled from the spec: `load_settings` (in `utils/allocation_logic`,
not in the snapshot) "fails by returning documented defaults for missing
numeric fields (`days`=30, `rafts_per_slot`=5, `capacity`=6) rather than
raising". -/
def load_settings (st : Settings) : Settings :=
  { st with
    days := some (st.days.getD 30)
    rafts_per_slot := some (st.rafts_per_slot.getD 5)
    capacity := some (st.capacity.getD 6) }

/-- Dynamic per-slot maximum from `book`:
`settings.get('rafts_per_slot', 5) * (settings.get('capacity', 6) + 1)`. -/
def max_people_per_slot (settings : Settings) : Nat :=
  settings.rafts_per_slot.getD 5 * (settings.capacity.getD 6 + 1)

/-- Booking-window computation from the head of `book`: when both
`start_date` and `end_date` are truthy and parse, the window is
`[max(start_date, today), end_date]`; otherwise (absent, empty or parse
failure) it is `[today, today + settings.get('days', 30)]`. -/
def windowRaw (settings : Settings) (today : YMDdate) : YMDdate × YMDdate :=
  if settings.start_date.getD "" ≠ "" ∧ settings.end_date.getD "" ≠ "" then
    match parseDate (settings.start_date.getD ""),
        parseDate (settings.end_date.getD "") with
    | some s, some e => (s, e)
    | _, _ => (today, addDays today (settings.days.getD 30))
  else (today, addDays today (settings.days.getD 30))

/-- The allowed booking window `[min_date, max_date]`:
`min_date = max(start_date, today)` (users cannot book in the past) and
`max_date = end_date`. -/
def computeWindow (settings : Settings) (today : YMDdate) : YMDdate × YMDdate :=
  (dateMax (windowRaw settings today).1 today, (windowRaw settings today).2)

/-- Membership test for raft documents of a (date, slot) pair, the Mongo
filter `{'day': d, 'slot': s}`. -/
def isFor (d s : String) (r : Raft) : Bool := r.day == d && r.slot == s

/-- Does the store already hold a raft document keyed (day, slot, index)? -/
def hasRaft (store : List Raft) (d s : String) (i : Nat) : Bool :=
  store.any (fun r => isFor d s r && r.idx == i)

/-- Modelled from the spec: `ensure_rafts_for_date_slot` (in
`models/raft_model`, not in the snapshot) "idempotently guarantees that
exactly `rafts_per_slot` raft records exist for the (date, slot) pair, each
initialized with zero occupancy if newly created", with "upsert semantics
keyed on date+slot+index": for each index below `rafts_per_slot` a missing
document is inserted with zero occupancy, existing documents are kept and
nothing is deleted.  The `capacity` argument is part of the interface but
only occupancy is stored. -/
def ensure_rafts_for_date_slot (store : List Raft) (d s : String)
    (rafts_per_slot capacity : Nat) : List Raft :=
  store ++ (((List.range rafts_per_slot).filter
      (fun i => !hasRaft store d s i)).map (fun i => ⟨i, d, s, 0⟩))

/-- Ordered insertion by raft index. -/
def insertByIdx (r : Raft) : List Raft → List Raft
  | [] => [r]
  | x :: xs => if r.idx ≤ x.idx then r :: x :: xs else x :: insertByIdx r xs

/-- Insertion sort by raft index ("ordered by raft index" in the spec). -/
def sortByIdx : List Raft → List Raft
  | [] => []
  | r :: rs => insertByIdx r (sortByIdx rs)

/-- The rafts of a (date, slot) pair, ordered by raft index. -/
def slotRafts (store : List Raft) (d s : String) : List Raft :=
  sortByIdx (store.filter (isFor d s))

/-- Result record of the allocation engine. -/
structure AllocResult where
  status : String
  message : String
  rafts : List (Nat × Nat)
deriving DecidableEq, Repr

/-- The overflow seat is free: there is at least one raft and no raft has
already used the single seat beyond standard capacity. -/
def overflowAvailable (C : Nat) (rs : List Raft) : Bool :=
  !rs.isEmpty && rs.all (fun r => r.occupancy ≤ C)

/-- Seats still free at standard capacity across the slot's rafts. -/
def normalRemaining (C : Nat) (rs : List Raft) : Nat :=
  (rs.map (fun r => C - r.occupancy)).sum

/-- Remaining total capacity of the slot, including the one overflow seat
when it is still free. -/
def totalRemaining (C : Nat) (rs : List Raft) : Nat :=
  normalRemaining C rs + (if overflowAvailable C rs then 1 else 0)

/-- Total seats assigned by an allocation list. -/
def sumSeats : List (Nat × Nat) → Nat
  | [] => 0
  | p :: l => p.2 + sumSeats l

/-- Greedy split of a group across rafts in index order, filling each raft
to standard capacity before moving on. -/
def greedyFill (C : Nat) : List Raft → Nat → List (Nat × Nat)
  | [], _ => []
  | r :: rs, n =>
    let t := min (C - r.occupancy) n
    if t = 0 then greedyFill C rs n
    else (r.idx, t) :: greedyFill C rs (n - t)

/-- Put the one overflow seat on the lowest-index raft of the slot (the
deterministic policy the spec documents as lowest-index-first). -/
def bumpFirst (rs : List Raft) (alloc : List (Nat × Nat)) : List (Nat × Nat) :=
  match rs with
  | [] => alloc
  | r :: _ =>
    match alloc with
    | [] => [(r.idx, 1)]
    | (i, k) :: rest =>
      if i = r.idx then (i, k + 1) :: rest else (r.idx, 1) :: (i, k) :: rest

/-- Seats an allocation list assigns to one raft index. -/
def seatsForIdx (alloc : List (Nat × Nat)) (i : Nat) : Nat :=
  sumSeats (alloc.filter (fun p => p.1 == i))

/-- Write an allocation back to the store: increment the occupancy of each
involved raft of the (date, slot) pair. -/
def applyAlloc (store : List Raft) (d s : String)
    (alloc : List (Nat × Nat)) : List Raft :=
  store.map (fun r =>
    if isFor d s r then
      { r with occupancy := r.occupancy + seatsForIdx alloc r.idx }
    else r)

/-- Modelled from the spec: `allocate_raft` (in `utils/allocation_logic`,
not in the snapshot).  Algorithm of §4.3: load the slot's rafts ordered by
index; if the remaining total capacity (including the one overflow seat) is
insufficient, return "Pending" with an explanatory message and mutate
nothing; otherwise prefer the lowest-index raft that takes the whole group
at standard capacity, then (last resort) a raft that takes it using the one
overflow seat, then split greedily across rafts in index order, placing the
overflow seat last if it is needed; increment occupancy of each involved
raft and return "Confirmed" with the (raft index, seats) list. -/
def allocate_raft (C : Nat) (store : List Raft) (d s : String) (n : Nat) :
    AllocResult × List Raft :=
  let rs := slotRafts store d s
  if totalRemaining C rs < n then
    (⟨"Pending",
      "Not enough capacity for this group; an admin will contact you to handle the booking manually.",
      []⟩, store)
  else
    let alloc :=
      match rs.find? (fun r => r.occupancy + n ≤ C) with
      | some r => [(r.idx, n)]
      | none =>
        match (if overflowAvailable C rs
               then rs.find? (fun r => r.occupancy + n ≤ C + 1) else none) with
        | some r => [(r.idx, n)]
        | none =>
          let a0 := greedyFill C rs n
          if sumSeats a0 < n then bumpFirst rs a0 else a0
    (⟨"Confirmed", "Booking Confirmed!", alloc⟩, applyAlloc store d s alloc)

/-- Result record of the amount calculator. -/
structure AmountResult where
  applicable_amount : Nat
  total_amount : Nat
deriving DecidableEq, Repr

/-- Modelled from the spec: the settings-driven per-person rate applicable
to a date (peak dates listed in settings carry the peak rate, other dates
the base rate). -/
def applicable_rate (settings : Settings) (d : String) : Nat :=
  if (settings.peak_dates.getD []).contains d then
    settings.peak_amount.getD (settings.amount.getD 0)
  else settings.amount.getD 0

/-- Modelled from the spec: `calculate_total_amount` (in
`utils/amount_calculator`, not in the snapshot) "determines the per-person
rate applicable to `date` ... and multiplies by `group_size`"; a pure
function of (settings, date, group size), which the embedding reflects in
its type: no store argument, no effect. -/
def calculate_total_amount (settings : Settings) (d : String) (n : Nat) :
    AmountResult :=
  let rate := applicable_rate settings d
  ⟨rate, rate * n⟩

/-- Modelled from the spec: `create_booking` (in `models/booking_model`,
not in the snapshot) "inserts a new immutable record, returns its
identifier"; the identifier is modelled as the insertion position. -/
def create_booking (bookings : List Booking) (name email phone date slot : String)
    (group_size : Int) (status : String) (raft_allocations : List (Nat × Nat))
    (amount_per_person total_amount : Nat) : Nat × List Booking :=
  (bookings.length,
   bookings ++ [⟨name, email, phone, date, slot, group_size, status,
                raft_allocations, amount_per_person, total_amount⟩])

/-- The POST form of the booking page.  `booking_date` and `group_size` are
optional because `request.form.get` yields `None` for a missing field and
the handler branches on that; the remaining fields are threaded through
without validation or branching. -/
structure BookForm where
  name : String
  email : String
  phone : String
  booking_date : Option String
  slot : String
  group_size : Option String
deriving DecidableEq, Repr

/-- Observable outcome of a POST to `/book`: a flashed validation error
with redirect back to the form, or a redirect to the confirmation page of
the created booking with a flashed message and category. -/
inductive BookOutcome where
  | validationError (message : String)
  | confirmation (booking_id : Nat) (message : String) (category : String)
deriving DecidableEq, Repr

/-- The POST branch of the `book` route handler, translated line by line:
window computation, date presence/format/window validation, group-size
parsing and bounds validation, then `ensure_rafts_for_date_slot`,
`allocate_raft`, `calculate_total_amount` and `create_booking` with status
"Confirmed" and the returned allocations, or "Pending" and no allocations.
The raising subscriptions `settings['rafts_per_slot']` and
`settings['capacity']` are the `Except.error` branch. -/
def book (settings : Settings) (today : YMDdate) (store : Store)
    (form : BookForm) : Except String (BookOutcome × Store) :=
  if form.booking_date.getD "" = "" then
    .ok (.validationError "Please provide a booking date.", store)
  else
    match parseDate (form.booking_date.getD "") with
    | none => .ok (.validationError "Invalid booking date format.", store)
    | some booking_date =>
      if YMDdate.lt booking_date (computeWindow settings today).1 ||
          YMDdate.lt (computeWindow settings today).2 booking_date then
        .ok (.validationError
          "Booking date must be between the allowed dates (inclusive).", store)
      else
        match form.group_size with
        | none => .ok (.validationError "Invalid group size", store)
        | some gss =>
          match parseIntStr gss with
          | none => .ok (.validationError "Invalid group size", store)
          | some group_size =>
            if group_size < 1 ∨ (max_people_per_slot settings : Int) < group_size then
              .ok (.validationError
                "Invalid group size. Maximum allowed people per slot exceeded.",
                store)
            else
              match settings.rafts_per_slot, settings.capacity with
              | some R, some C =>
                let bds := form.booking_date.getD ""
                let rafts1 := ensure_rafts_for_date_slot store.rafts bds form.slot R C
                let ar := allocate_raft C rafts1 bds form.slot group_size.toNat
                let amount_calc := calculate_total_amount settings bds group_size.toNat
                if ar.1.status = "Confirmed" then
                  let cb := create_booking store.bookings form.name form.email
                    form.phone bds form.slot group_size "Confirmed" ar.1.rafts
                    amount_calc.applicable_amount amount_calc.total_amount
                  .ok (.confirmation cb.1 ar.1.message "success", ⟨ar.2, cb.2⟩)
                else
                  let cb := create_booking store.bookings form.name form.email
                    form.phone bds form.slot group_size "Pending" []
                    amount_calc.applicable_amount amount_calc.total_amount
                  .ok (.confirmation cb.1 ar.1.message "warning", ⟨ar.2, cb.2⟩)
              | _, _ => .error "KeyError: settings"

/-- Occupancy summed over every raft document of a slot, regardless of day
(the endpoint's Mongo filter is `{'slot': slot, 'day': {'$exists': True}}`
and every modelled raft document carries a day). -/
def slotOccupancy (rafts : List Raft) (slot : String) : Nat :=
  ((rafts.filter (fun r => r.slot == slot)).map (fun r => r.occupancy)).sum

/-- Python `round(x, 2)` on an exact rational. -/
def round2 (x : ℚ) : ℚ := ((round (x * 100) : ℤ) : ℚ) / 100

/-- The `availability` route handler: per slot, `available` is
`max(total_capacity - total_occupancy, 0)` with
`total_capacity = settings['rafts_per_slot'] * settings['capacity']`, and
`percent_full` is the occupancy percentage rounded to two decimals (0 when
the total capacity is 0).  The raising subscriptions are the
`Except.error` branch. -/
def availability (settings : Settings) (store : Store) :
    Except String (List (String × (Int × ℚ))) :=
  match settings.rafts_per_slot, settings.capacity with
  | some R, some C =>
    let total_capacity := R * C
    .ok ((settings.time_slots.getD []).map (fun slot =>
      let total_occupancy := slotOccupancy store.rafts slot
      let available := max ((total_capacity : Int) - (total_occupancy : Int)) 0
      let percent_full :=
        if 0 < total_capacity then
          round2 (((total_occupancy : ℚ) / (total_capacity : ℚ)) * 100)
        else 0
      (slot, (available, percent_full))))
  | _, _ => .error "KeyError: settings"

/-! ## Helper lemmas about the allocation engine -/

/-- The greedy split assigns `min n` (seats requested) against the seats
free at standard capacity. -/
theorem sumSeats_greedyFill (C : Nat) (rs : List Raft) (n : Nat) :
    sumSeats (greedyFill C rs n) = min n (normalRemaining C rs) := by
  induction rs generalizing n with
  | nil => simp [greedyFill, sumSeats, normalRemaining]
  | cons r rs ih =>
    simp only [greedyFill, normalRemaining, List.map_cons, List.sum_cons]
    split
    · rw [ih]
      simp only [normalRemaining]
      omega
    · simp only [sumSeats]
      rw [ih]
      simp only [normalRemaining]
      omega

/-- Adding the overflow seat adds exactly one assigned seat. -/
theorem sumSeats_bumpFirst (rs : List Raft) (a : List (Nat × Nat))
    (h : rs ≠ []) : sumSeats (bumpFirst rs a) = sumSeats a + 1 := by
  cases rs with
  | nil => exact absurd rfl h
  | cons r rs =>
    cases a with
    | nil => simp [bumpFirst, sumSeats]
    | cons p rest =>
      obtain ⟨i, k⟩ := p
      simp only [bumpFirst]
      split <;> simp [sumSeats] <;> omega

/-- A true overflow flag means the slot has at least one raft. -/
theorem overflowAvailable_ne_nil (C : Nat) (rs : List Raft)
    (h : overflowAvailable C rs = true) : rs ≠ [] := by
  cases rs with
  | nil => simp [overflowAvailable] at h
  | cons r rs => exact List.cons_ne_nil r rs

/-! ## C1 and C2: the allocation engine -/

/-- C1: for every (date, slot) and every valid group size that is at most
the remaining total capacity of the slot (including the one overflow seat),
`allocate_raft` returns status "Confirmed" and the seats assigned across
the returned raft allocations sum to the group size. -/
theorem allocate_raft_confirms_when_capacity_suffices
    (C : Nat) (store : List Raft) (d s : String) (n : Nat)
    (hpos : 1 ≤ n)
    (hcap : n ≤ totalRemaining C (slotRafts store d s)) :
    (allocate_raft C store d s n).1.status = "Confirmed" ∧
    sumSeats (allocate_raft C store d s n).1.rafts = n := by
  unfold allocate_raft
  have hnot : ¬ totalRemaining C (slotRafts store d s) < n := by omega
  simp only [hnot, if_false, ite_false]
  refine ⟨by trivial, ?_⟩
  split
  · simp [sumSeats]
  · split
    · simp [sumSeats]
    · by_cases hlt : sumSeats (greedyFill C (slotRafts store d s) n) < n
      · rw [if_pos hlt]
        have hmin := sumSeats_greedyFill C (slotRafts store d s) n
        have hnr : normalRemaining C (slotRafts store d s) < n := by omega
        have hov : overflowAvailable C (slotRafts store d s) = true := by
          by_contra hov
          rw [Bool.not_eq_true] at hov
          simp [totalRemaining, hov] at hcap
          omega
        rw [sumSeats_bumpFirst _ _ (overflowAvailable_ne_nil C _ hov)]
        simp [totalRemaining, hov] at hcap
        omega
      · rw [if_neg hlt]
        have hmin := sumSeats_greedyFill C (slotRafts store d s) n
        omega

/-- Witness for C1: a group of 7 fits a single empty raft of capacity 6
using the overflow seat. -/
theorem allocate_raft_confirms_witness :
    1 ≤ 7 ∧ 7 ≤ totalRemaining 6 (slotRafts [⟨0, "d", "m", 0⟩] "d" "m") ∧
    ((allocate_raft 6 [⟨0, "d", "m", 0⟩] "d" "m" 7).1.status = "Confirmed" ∧
     sumSeats (allocate_raft 6 [⟨0, "d", "m", 0⟩] "d" "m" 7).1.rafts = 7) :=
  ⟨by decide, by decide,
   allocate_raft_confirms_when_capacity_suffices 6 [⟨0, "d", "m", 0⟩] "d" "m" 7
     (by decide) (by decide)⟩

/-- C2: for every (date, slot) and every group size strictly greater than
the remaining total capacity of the slot (including the overflow seat),
`allocate_raft` returns status "Pending" with a nonempty explanatory
message and leaves every raft document — in particular every raft of the
slot — unchanged. -/
theorem allocate_raft_pending_when_capacity_exceeded
    (C : Nat) (store : List Raft) (d s : String) (n : Nat)
    (hcap : totalRemaining C (slotRafts store d s) < n) :
    (allocate_raft C store d s n).1.status = "Pending" ∧
    (allocate_raft C store d s n).1.message ≠ "" ∧
    (allocate_raft C store d s n).2 = store := by
  unfold allocate_raft
  simp only [hcap, if_true, ite_true]
  exact ⟨by trivial, by decide, by trivial⟩

/-- Witness for C2: a group of 8 does not fit one empty raft of capacity 6
even with the overflow seat; nothing is mutated. -/
theorem allocate_raft_pending_witness :
    totalRemaining 6 (slotRafts [⟨0, "d", "m", 0⟩] "d" "m") < 8 ∧
    ((allocate_raft 6 [⟨0, "d", "m", 0⟩] "d" "m" 8).1.status = "Pending" ∧
     (allocate_raft 6 [⟨0, "d", "m", 0⟩] "d" "m" 8).1.message ≠ "" ∧
     (allocate_raft 6 [⟨0, "d", "m", 0⟩] "d" "m" 8).2 = [⟨0, "d", "m", 0⟩]) :=
  ⟨by decide,
   allocate_raft_pending_when_capacity_exceeded 6 [⟨0, "d", "m", 0⟩] "d" "m" 8 (by decide)⟩

/-! ## C4: the per-slot maximum group size -/

/-- C4: for all settings values `rafts_per_slot = R` and `capacity = C`,
the maximum group size accepted per slot equals `R * (C + 1)`; with the
default settings `R = 5` and `C = 6` (missing fields) it is 35. -/
theorem max_people_per_slot_eq :
    (∀ (s : Settings) (R C : Nat),
      s.rafts_per_slot = some R → s.capacity = some C →
      max_people_per_slot s = R * (C + 1)) ∧
    (∀ s : Settings, s.rafts_per_slot = none → s.capacity = none →
      max_people_per_slot s = 35) := by
  constructor
  · intro s R C hR hC
    simp [max_people_per_slot, hR, hC]
  · intro s hR hC
    simp [max_people_per_slot, hR, hC]

/-- Witness for C4 at `R = 5`, `C = 6` and at the default settings. -/
theorem max_people_per_slot_witness :
    max_people_per_slot ⟨none, some 5, some 6, none, none, none, none, none, none⟩ = 5 * (6 + 1) ∧
    max_people_per_slot ⟨none, none, none, none, none, none, none, none, none⟩ = 35 :=
  ⟨max_people_per_slot_eq.1 _ 5 6 rfl rfl, max_people_per_slot_eq.2 _ rfl rfl⟩

/-! ## C8: the amount calculator -/

/-- C8: `calculate_total_amount` is a pure function of (settings, date,
group size) — reflected in its type, which takes no store and produces no
effect — and for every group size `n` the returned total amount equals the
returned applicable amount multiplied by `n`. -/
theorem calculate_total_amount_multiplies (settings : Settings) (d : String)
    (n : Nat) :
    (calculate_total_amount settings d n).total_amount =
      (calculate_total_amount settings d n).applicable_amount * n := rfl

/-! ## C7: the raft capacity ledger -/

/-- After one call, every index below `rafts_per_slot` has a raft document
for the (date, slot) pair. -/
theorem hasRaft_append (l1 l2 : List Raft) (d s : String) (i : Nat) :
    hasRaft (l1 ++ l2) d s i = (hasRaft l1 d s i || hasRaft l2 d s i) := by
  simp [hasRaft, List.any_append]

/-- After one call, every index below `rafts_per_slot` has a raft document
for the (date, slot) pair. -/
theorem hasRaft_ensure (store : List Raft) (d s : String) (R C : Nat)
    (i : Nat) (hi : i < R) :
    hasRaft (ensure_rafts_for_date_slot store d s R C) d s i = true := by
  rw [ensure_rafts_for_date_slot, hasRaft_append]
  by_cases h : hasRaft store d s i
  · rw [h, Bool.true_or]
  · rw [Bool.not_eq_true] at h
    rw [h, Bool.false_or]
    unfold hasRaft
    refine List.any_eq_true.mpr ⟨⟨i, d, s, 0⟩, ?_, by simp [isFor]⟩
    refine List.mem_map.mpr
      ⟨i, List.mem_filter.mpr ⟨List.mem_range.mpr hi,
        by unfold hasRaft at h; rw [h]; rfl⟩, rfl⟩

/-- The second identical call inserts nothing. -/
theorem ensure_rafts_idem_aux (store : List Raft) (d s : String) (R C : Nat) :
    ensure_rafts_for_date_slot (ensure_rafts_for_date_slot store d s R C) d s R C =
      ensure_rafts_for_date_slot store d s R C := by
  conv_lhs => rw [ensure_rafts_for_date_slot]
  have hnil : (List.range R).filter
      (fun i => !hasRaft (ensure_rafts_for_date_slot store d s R C) d s i) = [] := by
    rw [List.filter_eq_nil_iff]
    intro i hi
    rw [hasRaft_ensure store d s R C i (List.mem_range.mp hi)]
    decide
  rw [hnil, List.map_nil, List.append_nil]



/-- Counterexample to C7 as stated: from a store that already holds a raft
document for the (date, slot) pair with an out-of-range index, two calls
with `rafts_per_slot = 1` leave two raft records for the pair, not one;
upsert semantics never deletes the stray document. -/
theorem ensure_rafts_counterexample :
    ¬ (((ensure_rafts_for_date_slot
          (ensure_rafts_for_date_slot [⟨5, "d", "m", 0⟩] "d" "m" 1 6)
          "d" "m" 1 6).filter (isFor "d" "m")).length = 1) := by decide

/-- C7 (amended): `ensure_rafts_for_date_slot` is idempotent — for every
store state a second identical call changes nothing — and for every store
state with no pre-existing raft records for the (date, slot) pair, calling
it twice with identical arguments leaves exactly `rafts_per_slot` raft
records for the pair; every record the call creates has zero occupancy. -/
theorem ensure_rafts_idempotent :
    (∀ (store : List Raft) (d s : String) (R C : Nat),
      ensure_rafts_for_date_slot (ensure_rafts_for_date_slot store d s R C) d s R C =
        ensure_rafts_for_date_slot store d s R C) ∧
    (∀ (store : List Raft) (d s : String) (R C : Nat),
      store.filter (isFor d s) = [] →
      ((ensure_rafts_for_date_slot (ensure_rafts_for_date_slot store d s R C)
          d s R C).filter (isFor d s)).length = R) ∧
    (∀ (store : List Raft) (d s : String) (R C : Nat) (r : Raft),
      r ∈ ensure_rafts_for_date_slot store d s R C → r ∈ store ∨ r.occupancy = 0) := by
  refine ⟨ensure_rafts_idem_aux, ?_, ?_⟩
  · intro store d s R C hclean
    rw [ensure_rafts_idem_aux]
    unfold ensure_rafts_for_date_slot
    have hnone : ∀ i, hasRaft store d s i = false := by
      intro i
      unfold hasRaft
      rw [List.any_eq_false]
      intro r hr hcontra
      rw [Bool.and_eq_true] at hcontra
      have : r ∈ store.filter (isFor d s) :=
        List.mem_filter.mpr ⟨hr, hcontra.1⟩
      rw [hclean] at this
      exact absurd this (List.not_mem_nil r)
    have hrange : (List.range R).filter (fun i => !hasRaft store d s i) =
        List.range R := by
      rw [List.filter_eq_self]
      intro i _
      rw [hnone i]
      rfl
    rw [hrange, List.filter_append, hclean, List.nil_append]
    have hall : ((List.range R).map (fun i => (⟨i, d, s, 0⟩ : Raft))).filter
        (isFor d s) = (List.range R).map (fun i => (⟨i, d, s, 0⟩ : Raft)) := by
      rw [List.filter_eq_self]
      intro r hr
      obtain ⟨i, _, rfl⟩ := List.mem_map.mp hr
      simp [isFor]
    rw [hall, List.length_map, List.length_range]
  · intro store d s R C r hr
    rcases List.mem_append.mp hr with h | h
    · exact Or.inl h
    · obtain ⟨i, _, rfl⟩ := List.mem_map.mp h
      exact Or.inr rfl

/-- Witness for C7 (amended): from an empty store, calling twice with
`rafts_per_slot = 5` leaves exactly 5 raft records. -/
theorem ensure_rafts_idempotent_witness :
    ([] : List Raft).filter (isFor "d" "m") = [] ∧
    ((ensure_rafts_for_date_slot (ensure_rafts_for_date_slot [] "d" "m" 5 6)
        "d" "m" 5 6).filter (isFor "d" "m")).length = 5 :=
  ⟨rfl, ensure_rafts_idempotent.2.1 [] "d" "m" 5 6 rfl⟩

/-! ## C3: every validated booking request is persisted -/

/-- C3: for every booking POST that passes input validation (date present,
well-formed and inside the window; group size parseable and within
1..max_people_per_slot) and numeric settings present, a booking record is
persisted regardless of the allocation outcome: with status "Confirmed"
and the returned raft allocations when `allocate_raft` confirms, otherwise
with status "Pending" and an empty allocation list; the handler redirects
to the confirmation page of the new record, so no validated request is
dropped. -/
theorem book_persists_every_validated_request
    (settings : Settings) (today : YMDdate) (store : Store) (form : BookForm)
    (bds gss : String) (bd : YMDdate) (gs : Int) (R C : Nat)
    (hbd : form.booking_date = some bds) (hbne : bds ≠ "")
    (hparse : parseDate bds = some bd)
    (hlo : YMDdate.lt bd (computeWindow settings today).1 = false)
    (hhi : YMDdate.lt (computeWindow settings today).2 bd = false)
    (hgss : form.group_size = some gss)
    (hgs : parseIntStr gss = some gs)
    (hg1 : 1 ≤ gs) (hg2 : gs ≤ (max_people_per_slot settings : Int))
    (hR : settings.rafts_per_slot = some R) (hC : settings.capacity = some C) :
    book settings today store form = .ok
      (.confirmation store.bookings.length
        (allocate_raft C (ensure_rafts_for_date_slot store.rafts bds form.slot R C)
          bds form.slot gs.toNat).1.message
        (if (allocate_raft C (ensure_rafts_for_date_slot store.rafts bds form.slot R C)
          bds form.slot gs.toNat).1.status = "Confirmed" then "success" else "warning"),
       ⟨(allocate_raft C (ensure_rafts_for_date_slot store.rafts bds form.slot R C)
          bds form.slot gs.toNat).2,
        store.bookings ++
          [⟨form.name, form.email, form.phone, bds, form.slot, gs,
            (if (allocate_raft C (ensure_rafts_for_date_slot store.rafts bds form.slot R C)
              bds form.slot gs.toNat).1.status = "Confirmed" then "Confirmed" else "Pending"),
            (if (allocate_raft C (ensure_rafts_for_date_slot store.rafts bds form.slot R C)
              bds form.slot gs.toNat).1.status = "Confirmed" then
              (allocate_raft C (ensure_rafts_for_date_slot store.rafts bds form.slot R C)
                bds form.slot gs.toNat).1.rafts else []),
            (calculate_total_amount settings bds gs.toNat).applicable_amount,
            (calculate_total_amount settings bds gs.toNat).total_amount⟩]⟩) := by
  have hbound : ¬ (gs < 1 ∨ (max_people_per_slot settings : Int) < gs) := by
    push_neg
    exact ⟨hg1, hg2⟩
  unfold book
  rw [hbd]
  simp only [Option.getD_some]
  rw [if_neg hbne, hparse]
  simp only [hlo, hhi, Bool.or_self, Bool.false_eq_true, if_false, ite_false]
  rw [hgss]
  simp only [hgs]
  rw [if_neg hbound]
  simp only [hR, hC]
  simp only [create_booking]
  split
  · rfl
  · rfl

/-- Witness for C3: a validated booking of 10 people on an empty day is
split 6 + 4 over the first two rafts and persisted as "Confirmed". -/
theorem book_persists_witness :
    book ⟨some 30, some 5, some 6, some "2025-01-01", some "2025-01-31",
        some ["m"], some 100, none, none⟩
      ⟨2025, 1, 15⟩ ⟨[], []⟩ ⟨"a", "e", "p", some "2025-01-20", "m", some "10"⟩ =
      .ok (.confirmation 0 "Booking Confirmed!" "success",
        ⟨[⟨0, "2025-01-20", "m", 6⟩, ⟨1, "2025-01-20", "m", 4⟩,
          ⟨2, "2025-01-20", "m", 0⟩, ⟨3, "2025-01-20", "m", 0⟩,
          ⟨4, "2025-01-20", "m", 0⟩],
         [⟨"a", "e", "p", "2025-01-20", "m", 10, "Confirmed", [(0, 6), (1, 4)],
           100, 1000⟩]⟩) := by
  have h := book_persists_every_validated_request
    ⟨some 30, some 5, some 6, some "2025-01-01", some "2025-01-31",
      some ["m"], some 100, none, none⟩
    ⟨2025, 1, 15⟩ ⟨[], []⟩ ⟨"a", "e", "p", some "2025-01-20", "m", some "10"⟩
    "2025-01-20" "10" ⟨2025, 1, 20⟩ 10 5 6 rfl (by decide) (by decide)
    (by decide) (by decide) rfl (by decide) (by decide) (by decide) rfl rfl
  rw [h]
  rfl

/-! ## C5: group-size validation rejects at the boundary -/

/-- Python max of a date with itself. -/
theorem dateMax_self (t : YMDdate) : dateMax t t = t := by
  simp [dateMax, YMDdate.lt]

/-- C5: every booking POST whose group size fails to parse as an integer,
or parses below 1 or above `max_people_per_slot`, is answered with a
nonempty user-facing validation message and an unchanged store: no raft is
created or filled and no booking record is inserted, so the allocation
engine and the amount calculator are never reached. -/
theorem book_rejects_invalid_group_size
    (settings : Settings) (today : YMDdate) (store : Store) (form : BookForm)
    (hinv : form.group_size.bind parseIntStr = none ∨
      ∃ gs : Int, form.group_size.bind parseIntStr = some gs ∧
        (gs < 1 ∨ (max_people_per_slot settings : Int) < gs)) :
    ∃ m, m ≠ "" ∧ book settings today store form = .ok (.validationError m, store) := by
  unfold book
  by_cases h1 : form.booking_date.getD "" = ""
  · rw [if_pos h1]
    exact ⟨_, by decide, rfl⟩
  · rw [if_neg h1]
    rcases hp : parseDate (form.booking_date.getD "") with _ | bd
    · simp only [hp]
      exact ⟨_, by decide, rfl⟩
    · simp only [hp]
      by_cases h2 : (YMDdate.lt bd (computeWindow settings today).1 ||
          YMDdate.lt (computeWindow settings today).2 bd) = true
      · rw [if_pos h2]
        exact ⟨_, by decide, rfl⟩
      · rw [if_neg h2]
        rcases hfg : form.group_size with _ | gss
        · simp only [hfg]
          exact ⟨_, by decide, rfl⟩
        · simp only [hfg]
          rcases hps : parseIntStr gss with _ | gs
          · simp only [hps]
            exact ⟨_, by decide, rfl⟩
          · simp only [hps]
            have hb : gs < 1 ∨ (max_people_per_slot settings : Int) < gs := by
              rcases hinv with h | ⟨gs', h', hbnd⟩
              · rw [hfg] at h
                simp [hps] at h
              · rw [hfg] at h'
                simp only [Option.some_bind, hps, Option.some_inj] at h'
                rwa [← h'] at hbnd
            rw [if_pos hb]
            exact ⟨_, by decide, rfl⟩

/-- Witness for C5: a group size of 0 on an otherwise valid request is
rejected and the store stays empty. -/
theorem book_rejects_invalid_group_size_witness :
    ∃ m, m ≠ "" ∧
      book ⟨some 30, some 5, some 6, some "2025-01-01", some "2025-01-31",
          some ["m"], some 100, none, none⟩
        ⟨2025, 1, 15⟩ ⟨[], []⟩
        ⟨"a", "e", "p", some "2025-01-20", "m", some "0"⟩ =
        .ok (.validationError m, ⟨[], []⟩) :=
  book_rejects_invalid_group_size _ ⟨2025, 1, 15⟩ ⟨[], []⟩
    ⟨"a", "e", "p", some "2025-01-20", "m", some "0"⟩
    (Or.inr ⟨0, by decide, Or.inl (by decide)⟩)

/-! ## C6: the booking window -/

/-- C6: the booking window is `min_date = max(start_date, today)` and
`max_date = end_date` when settings provide truthy, parseable `start_date`
and `end_date`, and `[today, today + days]` otherwise; every submitted
booking date strictly before `min_date` or strictly after `max_date` is
rejected with a validation message and an unchanged store, before any
allocation. -/
theorem booking_window_correct :
    (∀ (settings : Settings) (today : YMDdate) (sd ed : String) (S E : YMDdate),
      settings.start_date = some sd → settings.end_date = some ed →
      sd ≠ "" → ed ≠ "" → parseDate sd = some S → parseDate ed = some E →
      computeWindow settings today = (dateMax S today, E)) ∧
    (∀ (settings : Settings) (today : YMDdate),
      (settings.start_date.getD "" = "" ∨ settings.end_date.getD "" = "" ∨
        parseDate (settings.start_date.getD "") = none ∨
        parseDate (settings.end_date.getD "") = none) →
      computeWindow settings today = (today, addDays today (settings.days.getD 30))) ∧
    (∀ (settings : Settings) (today : YMDdate) (store : Store) (form : BookForm)
        (bds : String) (bd : YMDdate),
      form.booking_date = some bds → bds ≠ "" → parseDate bds = some bd →
      (YMDdate.lt bd (computeWindow settings today).1 = true ∨
        YMDdate.lt (computeWindow settings today).2 bd = true) →
      book settings today store form =
        .ok (.validationError
          "Booking date must be between the allowed dates (inclusive).", store)) := by
  refine ⟨?_, ?_, ?_⟩
  · intro s today sd ed S E hsd hed hsne hene hpS hpE
    unfold computeWindow windowRaw
    rw [hsd, hed]
    simp only [Option.getD_some]
    rw [if_pos ⟨hsne, hene⟩]
    simp only [hpS, hpE]
  · intro s today h
    unfold computeWindow windowRaw
    by_cases hc : s.start_date.getD "" ≠ "" ∧ s.end_date.getD "" ≠ ""
    · rw [if_pos hc]
      rcases h with h | h | h | h
      · exact absurd h hc.1
      · exact absurd h hc.2
      · simp only [h]
        cases hpe : parseDate (s.end_date.getD "") <;> simp [dateMax_self]
      · rw [h]
        cases hps : parseDate (s.start_date.getD "") <;> simp [dateMax_self]
    · rw [if_neg hc]
      simp [dateMax_self]
  · intro s today store form bds bd hbd hbne hparse hviol
    unfold book
    rw [hbd]
    simp only [Option.getD_some]
    rw [if_neg hbne, hparse]
    have hcond : (YMDdate.lt bd (computeWindow s today).1 ||
        YMDdate.lt (computeWindow s today).2 bd) = true := by
      rcases hviol with h | h
      · rw [h]
        rfl
      · rw [h]
        simp
    simp only [hcond, if_true, ite_true]

/-- Witness for C6, the spec's scenario: with `start_date = 2025-01-01`,
`end_date = 2025-01-31` and today `2025-01-15`, the window is
`[2025-01-15, 2025-01-31]` and a booking for `2025-02-01` is rejected. -/
theorem booking_window_witness :
    computeWindow ⟨some 30, some 5, some 6, some "2025-01-01",
        some "2025-01-31", some ["m"], some 100, none, none⟩ ⟨2025, 1, 15⟩ =
      (⟨2025, 1, 15⟩, ⟨2025, 1, 31⟩) ∧
    book ⟨some 30, some 5, some 6, some "2025-01-01", some "2025-01-31",
        some ["m"], some 100, none, none⟩
      ⟨2025, 1, 15⟩ ⟨[], []⟩ ⟨"a", "e", "p", some "2025-02-01", "m", some "10"⟩ =
      .ok (.validationError
        "Booking date must be between the allowed dates (inclusive).",
        ⟨[], []⟩) := by
  constructor
  · have h := booking_window_correct.1
      ⟨some 30, some 5, some 6, some "2025-01-01", some "2025-01-31",
        some ["m"], some 100, none, none⟩ ⟨2025, 1, 15⟩
      "2025-01-01" "2025-01-31" ⟨2025, 1, 1⟩ ⟨2025, 1, 31⟩
      rfl rfl (by decide) (by decide) (by decide) (by decide)
    rw [h]
    decide
  · exact booking_window_correct.2.2
      ⟨some 30, some 5, some 6, some "2025-01-01", some "2025-01-31",
        some ["m"], some 100, none, none⟩ ⟨2025, 1, 15⟩ ⟨[], []⟩
      ⟨"a", "e", "p", some "2025-02-01", "m", some "10"⟩
      "2025-02-01" ⟨2025, 2, 1⟩ rfl (by decide) (by decide)
      (Or.inr (by decide))

/-! ## C9: missing numeric settings fall back to defaults -/

/-- C9: for every settings record — in particular one with missing numeric
fields — loading through the settings provider makes the booking POST
handler and the availability endpoint return a normal response, never the
`KeyError` branch; a record with all numeric fields missing is loaded with
the documented defaults `days = 30`, `rafts_per_slot = 5`, `capacity = 6`. -/
theorem settings_defaults_keep_flow_available :
    (∀ (st : Settings) (today : YMDdate) (store : Store) (form : BookForm),
      ∃ r, book (load_settings st) today store form = .ok r) ∧
    (∀ (st : Settings) (store : Store),
      ∃ l, availability (load_settings st) store = .ok l) ∧
    (∀ st : Settings, st.days = none → st.rafts_per_slot = none →
      st.capacity = none →
      (load_settings st).days = some 30 ∧
      (load_settings st).rafts_per_slot = some 5 ∧
      (load_settings st).capacity = some 6) := by
  refine ⟨?_, ?_, ?_⟩
  · intro st today store form
    unfold book
    by_cases h1 : form.booking_date.getD "" = ""
    · rw [if_pos h1]
      exact ⟨_, rfl⟩
    · rw [if_neg h1]
      rcases hp : parseDate (form.booking_date.getD "") with _ | bd
      · simp only [hp]
        exact ⟨_, rfl⟩
      · simp only [hp]
        by_cases h2 : (YMDdate.lt bd (computeWindow (load_settings st) today).1 ||
            YMDdate.lt (computeWindow (load_settings st) today).2 bd) = true
        · rw [if_pos h2]
          exact ⟨_, rfl⟩
        · rw [if_neg h2]
          rcases hfg : form.group_size with _ | gss
          · simp only [hfg]
            exact ⟨_, rfl⟩
          · simp only [hfg]
            rcases hps : parseIntStr gss with _ | gs
            · simp only [hps]
              exact ⟨_, rfl⟩
            · simp only [hps]
              by_cases hb : (gs < 1 ∨ (max_people_per_slot (load_settings st) : Int) < gs)
              · rw [if_pos hb]
                exact ⟨_, rfl⟩
              · rw [if_neg hb]
                simp only [load_settings]
                split
                · exact ⟨_, rfl⟩
                · exact ⟨_, rfl⟩
  · intro st store
    exact ⟨_, rfl⟩
  · intro st h1 h2 h3
    simp [load_settings, h1, h2, h3]

/-- Witness for C9: the all-missing settings record loads with the three
documented defaults. -/
theorem settings_defaults_witness :
    (load_settings ⟨none, none, none, none, none, none, none, none, none⟩).days = some 30 ∧
    (load_settings ⟨none, none, none, none, none, none, none, none, none⟩).rafts_per_slot = some 5 ∧
    (load_settings ⟨none, none, none, none, none, none, none, none, none⟩).capacity = some 6 :=
  settings_defaults_keep_flow_available.2.2
    ⟨none, none, none, none, none, none, none, none, none⟩ rfl rfl rfl

/-! ## C10: the availability report -/

/-- Counterexample to C10 as stated: with `rafts_per_slot = 1` and
`capacity = 20001`, a slot occupancy of exactly `1 * (20001 + 1)` reports
`percent_full = 100`, not a value exceeding 100 — the two-decimal rounding
collapses the overflow — while `available` is still 0, not negative. -/
theorem availability_percent_counterexample :
    slotOccupancy [⟨0, "d", "m", 20002⟩] "m" = 1 * (20001 + 1) ∧
    availability ⟨none, some 1, some 20001, none, none, some ["m"], none, none, none⟩
        ⟨[⟨0, "d", "m", 20002⟩], []⟩ =
      .ok [("m", ((0 : Int), (100 : ℚ)))] ∧
    ¬ (100 < (100 : ℚ)) := by
  refine ⟨by decide, ?_, by norm_num⟩
  simp only [availability, slotOccupancy, round2]
  norm_num [round_eq, Int.floor_eq_iff]

/-- C10 (amended): for every slot the availability endpoint computes the
slot's total capacity as `rafts_per_slot * capacity` (excluding the
overflow seat) and reports `available = max(total_capacity -
total_occupancy, 0)`, hence never negative; and whenever occupancy reaches
`rafts_per_slot * (capacity + 1)` with `0 < rafts_per_slot` and
`0 < capacity ≤ 20000`, the reported `percent_full` exceeds 100 (at
capacity 20001 the two-decimal rounding collapses the excess to exactly
100, as the counterexample shows). -/
theorem availability_reports_nonnegative
    (settings : Settings) (store : Store) (R C : Nat)
    (hR : settings.rafts_per_slot = some R) (hC : settings.capacity = some C) :
    ∃ l, availability settings store = .ok l ∧
      ∀ slot av pc, (slot, (av, pc)) ∈ l →
        (av = max ((R * C : Int) - (slotOccupancy store.rafts slot : Int)) 0 ∧
         0 ≤ av) ∧
        (slotOccupancy store.rafts slot = R * (C + 1) → 0 < R → 0 < C →
          C ≤ 20000 → 100 < pc) := by
  unfold availability
  simp only [hR, hC]
  refine ⟨_, rfl, ?_⟩
  intro slot av pc hmem
  obtain ⟨slot', hmem', heq⟩ := List.mem_map.mp hmem
  simp only [Prod.mk.injEq] at heq
  obtain ⟨hs, ha, hpc⟩ := heq
  subst hs
  constructor
  · constructor
    · rw [← ha]
      push_cast
      rfl
    · rw [← ha]
      exact le_max_right _ 0
  · intro hocc hR0 hC0 hC2
    have htc : 0 < R * C := Nat.mul_pos hR0 hC0
    rw [← hpc, if_pos htc, hocc]
    have hCQ : (0 : ℚ) < (C : ℚ) := by exact_mod_cast hC0
    have hRQ : (0 : ℚ) < (R : ℚ) := by exact_mod_cast hR0
    have hq : ((R * (C + 1) : ℕ) : ℚ) / ((R * C : ℕ) : ℚ) * 100 * 100 =
        10000 / (C : ℚ) + ((10000 : ℤ) : ℚ) := by
      push_cast
      field_simp
      ring
    have hCle : (C : ℚ) ≤ 20000 := by
      exact_mod_cast hC2
    have hround : 1 ≤ round ((10000 : ℚ) / (C : ℚ)) := by
      rw [round_eq, Int.le_floor]
      have h1 : (1 : ℚ) / 2 ≤ 10000 / (C : ℚ) := by
        rw [div_le_div_iff₀ (by norm_num) hCQ]
        linarith
      push_cast
      linarith
    have hroundQ : (1 : ℚ) ≤ ((round ((10000 : ℚ) / (C : ℚ)) : ℤ) : ℚ) := by
      exact_mod_cast hround
    unfold round2
    rw [hq, round_add_int]
    rw [lt_div_iff₀ (by norm_num : (0 : ℚ) < 100)]
    push_cast
    linarith [hroundQ]

/-- Witness for C10 (amended) at the default capacities: one slot at
occupancy 35 = 5 * (6 + 1) reports `available = 0` and
`percent_full = 116.67 > 100`. -/
theorem availability_reports_nonnegative_witness :
    ∃ l, availability ⟨none, some 5, some 6, none, none, some ["m"], none, none, none⟩
        ⟨[⟨0, "d", "m", 35⟩], []⟩ = .ok l ∧
      ∀ slot av pc, (slot, (av, pc)) ∈ l →
        (av = max ((5 * 6 : Int) - (slotOccupancy [⟨0, "d", "m", 35⟩] slot : Int)) 0 ∧
         0 ≤ av) ∧
        (slotOccupancy [⟨0, "d", "m", 35⟩] slot = 5 * (6 + 1) → 0 < 5 → 0 < 6 →
          6 ≤ 20000 → 100 < pc) :=
  availability_reports_nonnegative
    ⟨none, some 5, some 6, none, none, some ["m"], none, none, none⟩
    ⟨[⟨0, "d", "m", 35⟩], []⟩ 5 6 rfl rfl
